import Mathlib

/-!
# Fairwinds-v7 — maintenance lifecycle engine, shallow embedding

This file embeds the maintenance lifecycle logic of the repository in Lean:

* the calendar arithmetic of the JavaScript `Date` runtime (ECMAScript
  `DayFromYear` / `YearFromTime` / `MonthFromTime` / `DateFromTime` /
  `MakeDay`), which is the semantics of the `setDate` / `setMonth` /
  `setFullYear` calls in `createRecurringRecords`
  (`src/components/maintenance/MaintenanceForm.tsx`);
* the status classification of `getStatus` (`MaintenanceCard`) and the
  filter predicates of `getFilteredRecords` (`src/pages/maintenance/history.tsx`);
* the dashboard aggregation `getMaintenanceCounts` (maintenance index page);
* the validation and record-creation flow of `handleSubmit` and
  `createRecurringRecords` in `MaintenanceForm.tsx`, with the record store
  modelled as an oracle deciding the success of each write;
* the `markCompleted` transition (the update branch of `handleSubmit`
  under `completeMode`), over a list-of-records store model.

Dates are embedded as integers: a day number counts days since 1970-01-01
(ECMAScript `Day(t)`), a time value counts milliseconds since the epoch.
The form's date inputs (`YYYY-MM-DD`) always parse to UTC midnight, so the
recurrence loop runs on day numbers; classification compares raw time
values exactly as the source compares `Date` objects.
-/

namespace Fairwinds

/-! ## JavaScript `Date` calendar model (ECMAScript day/month arithmetic) -/

/-- ECMAScript `InLeapYear` / `DaysInYear`: a year has 366 days iff it is
divisible by 4 and not by 100, or divisible by 400. -/
def inLeapYear (y : Int) : Bool :=
  (y % 4 == 0 && y % 100 != 0) || y % 400 == 0

/-- Numeric view of the leap flag: 1 in a leap year, 0 otherwise. -/
def leapDays (y : Int) : Int :=
  if inLeapYear y then 1 else 0

/-- ECMAScript `DayFromYear(y)`: the day number of 1 January of year `y`. -/
def dayFromYear (y : Int) : Int :=
  365 * (y - 1970) + (y - 1969) / 4 - (y - 1901) / 100 + (y - 1601) / 400

/-- ECMAScript `YearFromTime`: the year `y` with
`dayFromYear y ≤ z < dayFromYear (y + 1)`, computed by a close initial
guess followed by bounded correction steps. -/
def yearFromDay (z : Int) : Int :=
  let g := 1970 + 400 * z / 146097
  let a := if z < dayFromYear g then g - 1 else g
  let b := if z < dayFromYear a then a - 1 else a
  if dayFromYear (b + 1) ≤ z then b + 1 else b

/-- First day (0-based day within the year) of 0-based month `m`, where
`p` is the year's number of leap days (ECMAScript month thresholds). -/
def monthStart (p m : Int) : Int :=
  if m ≤ 0 then 0
  else if m = 1 then 31
  else if m = 2 then 59 + p
  else if m = 3 then 90 + p
  else if m = 4 then 120 + p
  else if m = 5 then 151 + p
  else if m = 6 then 181 + p
  else if m = 7 then 212 + p
  else if m = 8 then 243 + p
  else if m = 9 then 273 + p
  else if m = 10 then 304 + p
  else 334 + p

/-- ECMAScript `MonthFromTime` as a function of the leap-day count `p`
and the 0-based day `d` within the year: 0-based month. -/
def monthIn (p d : Int) : Int :=
  if d < 31 then 0
  else if d < 59 + p then 1
  else if d < 90 + p then 2
  else if d < 120 + p then 3
  else if d < 151 + p then 4
  else if d < 181 + p then 5
  else if d < 212 + p then 6
  else if d < 243 + p then 7
  else if d < 273 + p then 8
  else if d < 304 + p then 9
  else if d < 334 + p then 10
  else 11

/-- ECMAScript `MonthFromTime` on a day number: 0-based month. -/
def monthFromDay (z : Int) : Int :=
  monthIn (leapDays (yearFromDay z)) (z - dayFromYear (yearFromDay z))

/-- ECMAScript `DateFromTime` as a function of the leap-day count and the
0-based day within the year: 1-based day of month. -/
def dateIn (p d : Int) : Int :=
  d - monthStart p (monthIn p d) + 1

/-- ECMAScript `DateFromTime` on a day number: 1-based day of month. -/
def dateFromDay (z : Int) : Int :=
  dateIn (leapDays (yearFromDay z)) (z - dayFromYear (yearFromDay z))

/-- ECMAScript `MakeDay(year, month, date)` (day-number part): months
outside `0..11` carry into the year, a day of month outside the month's
range rolls over into adjacent months.  This is the engine behind
`setDate`, `setMonth` and `setFullYear`. -/
def makeDay (y m d : Int) : Int :=
  let ym := y + m / 12
  let mn := m % 12
  dayFromYear ym + monthStart (leapDays ym) mn + d - 1

/-- `new Date(d); d.setMonth(d.getMonth() + k)` on a day number
(midnight-UTC dates, as produced by the form's `YYYY-MM-DD` inputs). -/
def jsAddMonths (z k : Int) : Int :=
  makeDay (yearFromDay z) (monthFromDay z + k) (dateFromDay z)

/-- `new Date(d); d.setFullYear(d.getFullYear() + k)` on a day number. -/
def jsAddYears (z k : Int) : Int :=
  makeDay (yearFromDay z + k) (monthFromDay z) (dateFromDay z)

/-- Days in 0-based month `m` given the leap-day count `p`. -/
def daysInMonthP (p m : Int) : Int :=
  if m = 1 then 28 + p
  else if m = 3 ∨ m = 5 ∨ m = 8 ∨ m = 10 then 30
  else 31

/-- Days in 0-based month `m` of year `y` (used to state the
clamping/overflow facts). -/
def daysInMonth (y m : Int) : Int :=
  daysInMonthP (leapDays y) m

/-! ## Records, status classification and aggregation -/

/-- Milliseconds per day; a `YYYY-MM-DD` form date parses to midnight
UTC, so its time value is the day number times this constant. -/
def msPerDay : Int := 86400000

/-- `needle` is a leading piece of `hay`. -/
def leadsList (needle hay : List Char) : Bool :=
  match needle, hay with
  | [], _ => true
  | _ :: _, [] => false
  | a :: as, b :: bs => a == b && leadsList as bs

/-- `needle` occurs contiguously inside `hay`
(JavaScript `String.prototype.includes` on char lists). -/
def includesList (needle : List Char) : List Char → Bool
  | [] => leadsList needle []
  | c :: rest => leadsList needle (c :: rest) || includesList needle rest

/-- `typeLabel.toLowerCase().includes('completed')`: the completion
sentinel test used by every classifier in the source (lower-casing is
done characterwise; the source's type labels are ASCII). -/
def typeIncludesCompleted (typeLabel : String) : Bool :=
  includesList "completed".toList (typeLabel.toList.map Char.toLower)

/-- The derived status of a maintenance record. -/
inductive Status where
  | completed
  | overdue
  | upcoming
deriving DecidableEq, Repr

/-- `getStatus` from `MaintenanceCard`: the completion sentinel wins
unconditionally; otherwise the record's time value is compared with the
current time value (`new Date(record.date) < new Date()` — full
timestamps, no normalization to midnight appears in the source). -/
def getStatus (typeLabel : String) (recordDate today : Int) : Status :=
  if typeIncludesCompleted typeLabel then .completed
  else if recordDate < today then .overdue
  else .upcoming

/-- A maintenance record as the read-side pages see it
(`MaintenanceRecord` in `types/models`); `date` is the time value of the
stored ISO string. -/
structure MaintenanceRecord where
  id : String
  title : String
  date : Int
  type : String
  notes : String
  rvId : String
  photos : List String
deriving DecidableEq, Repr

/-- The bucket filter of `getFilteredRecords`
(`src/pages/maintenance/history.tsx`). -/
def getFilteredRecords (filter : String) (maintenanceRecords : List MaintenanceRecord)
    (today : Int) : List MaintenanceRecord :=
  if filter = "all" then maintenanceRecords
  else
    maintenanceRecords.filter fun record =>
      if filter = "completed" then typeIncludesCompleted record.type
      else if filter = "overdue" then
        !typeIncludesCompleted record.type && decide (record.date < today)
      else if filter = "upcoming" then
        !typeIncludesCompleted record.type && decide (record.date ≥ today)
      else true

/-- The three dashboard counters. -/
structure MaintenanceCounts where
  completed : Nat
  overdue : Nat
  upcoming : Nat
deriving DecidableEq, Repr

/-- `getMaintenanceCounts` from the maintenance index page: bucket sizes
computed with the same three predicates as the history filter. -/
def getMaintenanceCounts (maintenanceRecords : List MaintenanceRecord)
    (today : Int) : MaintenanceCounts where
  completed :=
    (maintenanceRecords.filter fun record =>
      typeIncludesCompleted record.type).length
  overdue :=
    (maintenanceRecords.filter fun record =>
      !typeIncludesCompleted record.type && decide (record.date < today)).length
  upcoming :=
    (maintenanceRecords.filter fun record =>
      !typeIncludesCompleted record.type && decide (record.date ≥ today)).length

/-! ## Record creation (`handleSubmit` / `createRecurringRecords`) -/

/-- The `MaintenanceForm` form state relevant to submission. -/
structure FormData where
  title : String
  date : String
  type : String
  notes : String
  isRecurring : Bool
  recurringType : String
  recurringInterval : Int
  recurringEndDate : String
deriving Repr

/-- Split a character list on `'-'`. -/
def splitOnDash : List Char → List (List Char)
  | [] => [[]]
  | c :: rest =>
    let r := splitOnDash rest
    if c == '-' then [] :: r
    else
      match r with
      | [] => [[c]]
      | cur :: others => (c :: cur) :: others

/-- A non-empty all-digit character list as a number. -/
def digitsVal (l : List Char) : Option Nat :=
  if l = [] then none
  else
    l.foldl
      (fun acc c =>
        match acc with
        | none => none
        | some n => if '0' ≤ c ∧ c ≤ '9' then some (n * 10 + (c.toNat - 48)) else none)
      (some 0)

/-- `new Date("YYYY-MM-DD")`: an ISO calendar date parses to midnight
UTC; the result is returned as a day number.  Malformed input gives
`none` (JavaScript's `Invalid Date`, whose comparisons are all false). -/
def parseDateYMD (s : String) : Option Int :=
  match splitOnDash s.toList with
  | [y, m, d] =>
    match digitsVal y, digitsVal m, digitsVal d with
    | some yy, some mm, some dd => some (makeDay (yy : Int) ((mm : Int) - 1) (dd : Int))
    | _, _, _ => none
  | _ => none

/-- The `onChange` handler's treatment of the interval field:
`Math.max(1, parseInt(value) || 1)`. -/
def handleChangeInterval (value : Option Int) : Int :=
  max 1 (match value with | some v => if v = 0 then 1 else v | none => 1)

/-- The synchronous validation block at the top of `handleSubmit`:
required fields, then (when recurring) required recurring fields and the
end date strictly in the future.  Returns the thrown message, if any;
`today` is the current time value. -/
def validateSubmit (formData : FormData) (today : Int) : Option String :=
  if formData.title = "" ∨ formData.date = "" ∨ formData.type = "" then
    some "Please fill in all required fields"
  else if formData.isRecurring then
    if formData.recurringType = "" ∨ formData.recurringEndDate = "" then
      some "Please fill in all recurring maintenance fields"
    else
      match parseDateYMD formData.recurringEndDate with
      | some endDay =>
        if endDay * msPerDay ≤ today then some "End date must be in the future"
        else none
      | none => none
  else none

/-- One step of the date-generation loop: advance `currentDate` by the
recurrence pattern (an unrecognized pattern leaves the date unchanged,
as the source's if/else-if chain would). -/
def nextOccurrence (recurringType : String) (recurringInterval : Int)
    (currentDate : Int) : Int :=
  if recurringType = "daily" then currentDate + recurringInterval
  else if recurringType = "weekly" then currentDate + 7 * recurringInterval
  else if recurringType = "monthly" then jsAddMonths currentDate recurringInterval
  else if recurringType = "yearly" then jsAddYears currentDate recurringInterval
  else currentDate

/-- The `while (currentDate < endDate)` loop of `createRecurringRecords`,
with explicit fuel: `none` means the fuel ran out while the loop guard
still held (the loop would still be running). -/
def generateFutureDates (recurringType : String) (recurringInterval : Int)
    (endDate : Int) : Nat → Int → Option (List Int)
  | 0, currentDate => if currentDate < endDate then none else some []
  | fuel + 1, currentDate =>
    if currentDate < endDate then
      let next := nextOccurrence recurringType recurringInterval currentDate
      match generateFutureDates recurringType recurringInterval endDate fuel next with
      | none => none
      | some rest => some (if next ≤ endDate then next :: rest else rest)
    else some []

/-- A record as sent to the record store (`recordData` /
`childRecordData` in the source); `date` is a time value, and the
recurring fields are present only when set. -/
structure RecordData where
  title : String
  date : Int
  type : String
  notes : String
  photos : List String
  rvId : String
  parentRecordId : Option String
  isRecurring : Bool
  recurringType : Option String
  recurringInterval : Option Int
  recurringEndDate : Option String
deriving DecidableEq, Repr

/-- The `for (const date of recordsToCreate)` loop: one store write per
scheduled date, in order.  `childFails i` says whether the store rejects
the `i`-th write; the first rejection throws out of the loop into the
surrounding catch.  Returns the created records and the number of writes
attempted (the failing attempt included). -/
def runChildWrites (childFails : Nat → Bool) (mkChild : Int → RecordData) :
    Nat → List Int → List RecordData × Nat
  | _, [] => ([], 0)
  | i, d :: rest =>
    if childFails i then ([], 1)
    else
      let (created, attempted) := runChildWrites childFails mkChild (i + 1) rest
      (mkChild d :: created, attempted + 1)

/-- The child record written for one occurrence: copies title, type,
notes and rvId, stamps the parent id, is itself non-recurring, and sends
no photos. -/
def childRecordData (formData : FormData) (rvId parentId : String)
    (day : Int) : RecordData where
  title := formData.title
  date := day * msPerDay
  type := formData.type
  notes := formData.notes
  photos := []
  rvId := rvId
  parentRecordId := some parentId
  isRecurring := false
  recurringType := none
  recurringInterval := none
  recurringEndDate := none

/-- `createRecurringRecords`: generate the future dates, cap the batch at
the first 10, then write child records until the loop ends or a write
fails; every error is caught and swallowed, so the function itself never
fails.  `none` still signals the non-terminating loop (fuel exhausted). -/
def createRecurringRecords (formData : FormData) (rvId parentId : String)
    (childFails : Nat → Bool) (fuel : Nat) : Option (List RecordData × Nat) :=
  match parseDateYMD formData.date, parseDateYMD formData.recurringEndDate with
  | some baseDate, some endDate =>
    match generateFutureDates formData.recurringType formData.recurringInterval
        endDate fuel baseDate with
    | none => none
    | some futureDates =>
      some (runChildWrites childFails (childRecordData formData rvId parentId)
        0 (futureDates.take 10))
  | _, _ => some ([], 0)

/-- The parent record sent to the store by `handleSubmit`. -/
def parentRecordData (formData : FormData) (photos : List String)
    (rvId : String) (baseDay : Int) : RecordData where
  title := formData.title
  date := baseDay * msPerDay
  type := formData.type
  notes := formData.notes
  photos := photos
  rvId := rvId
  parentRecordId := none
  isRecurring := formData.isRecurring
  recurringType := if formData.isRecurring then some formData.recurringType else none
  recurringInterval :=
    if formData.isRecurring then some formData.recurringInterval else none
  recurringEndDate :=
    if formData.isRecurring then some formData.recurringEndDate else none

/-- The store's behavior for one `createRecord` run: whether the parent
write succeeds, the id it assigns, and which child writes fail. -/
structure StoreModel where
  parentOk : Bool
  parentId : String
  childFails : Nat → Bool

/-- The create branch of `handleSubmit`: validate, write the parent
(a parent store failure aborts and surfaces), then, when recurring,
create the child records — whose failures never propagate.  The result
is the parent record, the created children and the number of child
writes attempted; `none` means the date-generation loop never ends. -/
def createRecord (formData : FormData) (photos : List String) (rvId : String)
    (today : Int) (store : StoreModel) (fuel : Nat) :
    Option (Except String (RecordData × List RecordData × Nat)) :=
  match validateSubmit formData today with
  | some msg => some (.error msg)
  | none =>
    match parseDateYMD formData.date with
    | none => some (.error "Invalid time value")
    | some baseDay =>
      if store.parentOk then
        if formData.isRecurring then
          match createRecurringRecords formData rvId store.parentId
              store.childFails fuel with
          | none => none
          | some (created, attempted) =>
            some (.ok (parentRecordData formData photos rvId baseDay,
              created, attempted))
        else
          some (.ok (parentRecordData formData photos rvId baseDay, [], 0))
      else some (.error "StoreError")

/-! ## Completion (`markCompleted`: the update branch under `completeMode`) -/

/-- The fields sent by the update branch of `handleSubmit`. -/
structure UpdateData where
  title : String
  date : Int
  notes : String
  photos : List String
  rvId : String
deriving Repr

/-- One record after the update write: every sent field is rewritten,
the id is untouched. -/
def rewriteRecord (r : MaintenanceRecord) (newType : String)
    (u : UpdateData) : MaintenanceRecord where
  id := r.id
  title := u.title
  date := u.date
  type := newType
  notes := u.notes
  rvId := u.rvId
  photos := u.photos

/-- `MaintenanceRecord.update({id, ...recordData})` on a list-of-records
store: fails (`none`) when no record carries the id, otherwise rewrites
every field sent. -/
def updateRecord (store : List MaintenanceRecord) (id : String)
    (newType : String) (u : UpdateData) : Option (List MaintenanceRecord) :=
  if store.any (fun r => r.id == id) then
    some (store.map fun r => if r.id == id then rewriteRecord r newType u else r)
  else none

/-- Marking a record completed: `completeMode` pins the form's type to
the sentinel `"Completed"`, and the update rewrites the record with it
(no guard checks the previous type). -/
def markCompleted (store : List MaintenanceRecord) (id : String)
    (u : UpdateData) : Option (List MaintenanceRecord) :=
  updateRecord store id "Completed" u

/-! ## Concrete sample inputs used by the claims -/

/-- A maintenance record literal. -/
def mkRecord (id title : String) (date : Int) (typeLabel notes rvId : String)
    (photos : List String) : MaintenanceRecord where
  id := id
  title := title
  date := date
  type := typeLabel
  notes := notes
  rvId := rvId
  photos := photos

/-- A valid recurring submission: daily, interval 1, base 2025-01-01,
end date 365 days later. -/
def dailyYearForm : FormData where
  title := "Oil change"
  date := "2025-01-01"
  type := "Regular Service"
  notes := ""
  isRecurring := true
  recurringType := "daily"
  recurringInterval := 1
  recurringEndDate := "2026-01-01"

/-- A short valid recurring submission: daily, interval 1, three future
occurrences before the end date. -/
def dailyShortForm : FormData where
  title := "Filter check"
  date := "2025-01-01"
  type := "Inspection"
  notes := ""
  isRecurring := true
  recurringType := "daily"
  recurringInterval := 1
  recurringEndDate := "2025-01-04"

/-- A recurring submission whose first computed occurrence already
exceeds the end date: yearly, interval 5, end date the next day. -/
def emptyYearlyForm : FormData where
  title := "Registration"
  date := "2025-01-01"
  type := "Other"
  notes := ""
  isRecurring := true
  recurringType := "yearly"
  recurringInterval := 5
  recurringEndDate := "2025-01-02"

/-- A recurring submission with interval 0 and every other field valid. -/
def zeroIntervalForm : FormData where
  title := "Oil change"
  date := "2025-01-01"
  type := "Repair"
  notes := ""
  isRecurring := true
  recurringType := "monthly"
  recurringInterval := 0
  recurringEndDate := "2026-01-01"

/-- A "now" on the parent's base date (midnight UTC 2025-01-01). -/
def sampleNow : Int := makeDay 2025 0 1 * msPerDay

/-- The aggregation sample: records dated now−5d and now+3d of type
"Repair" and now−1d of type "Completed Service". -/
def aggregationSample (now : Int) : List MaintenanceRecord :=
  [mkRecord "m1" "Engine check" (now - 5 * msPerDay) "Repair" "" "rv1" [],
   mkRecord "m2" "Tire rotation" (now + 3 * msPerDay) "Repair" "" "rv1" [],
   mkRecord "m3" "Annual service" (now - msPerDay) "Completed Service" "" "rv1" []]

/-- A one-record store for the completion claims. -/
def completionStore : List MaintenanceRecord :=
  [mkRecord "r1" "Roof reseal" 0 "Repair" "" "rv1" []]

/-- The update fields sent along with a completion. -/
def completionUpdate : UpdateData where
  title := "Roof reseal"
  date := 5 * msPerDay
  notes := "done"
  photos := []
  rvId := "rv1"

/-- The store after completing record `r1`. -/
def completionStoreAfter : List MaintenanceRecord :=
  [mkRecord "r1" "Roof reseal" (5 * msPerDay) "Completed" "done" "rv1" []]

/-- The shape of a successful `createRecord` outcome: how many children
were created and how many child writes were attempted. -/
def createSummary
    (r : Option (Except String (RecordData × List RecordData × Nat))) :
    Option (Nat × Nat) :=
  match r with
  | some (.ok t) => some (t.2.1.length, t.2.2)
  | _ => none

/-- A copy of a form with only the interval replaced. -/
def setIntervalField (formData : FormData) (k : Int) : FormData where
  title := formData.title
  date := formData.date
  type := formData.type
  notes := formData.notes
  isRecurring := formData.isRecurring
  recurringType := formData.recurringType
  recurringInterval := k
  recurringEndDate := formData.recurringEndDate

/-! ### Calendar correctness lemmas -/

lemma leapDays_bounds (y : Int) : 0 ≤ leapDays y ∧ leapDays y ≤ 1 := by
  unfold leapDays
  split <;> omega

/-- Consecutive years are 365 or 366 days apart. -/
lemma dayFromYear_succ (y : Int) :
    dayFromYear (y + 1) - dayFromYear y = 365 + leapDays y := by
  simp only [dayFromYear, leapDays, inLeapYear, Bool.or_eq_true, Bool.and_eq_true,
    beq_iff_eq, bne_iff_ne]
  split_ifs with h <;> omega

/-- `dayFromYear` is monotone. -/
lemma dayFromYear_mono {a b : Int} (h : a ≤ b) : dayFromYear a ≤ dayFromYear b := by
  simp only [dayFromYear]
  omega

/-- The year finder is correct: `yearFromDay z` is the year whose first
day is at or before `z` and whose successor's first day is after `z`. -/
lemma yearFromDay_spec (z : Int) :
    dayFromYear (yearFromDay z) ≤ z ∧ z < dayFromYear (yearFromDay z + 1) := by
  simp only [yearFromDay, dayFromYear]
  split_ifs <;> omega

/-- The year finder is the unique year with that property. -/
lemma yearFromDay_eq {y z : Int} (h1 : dayFromYear y ≤ z) (h2 : z < dayFromYear (y + 1)) :
    yearFromDay z = y := by
  obtain ⟨hl, hr⟩ := yearFromDay_spec z
  rcases lt_trichotomy (yearFromDay z) y with h | h | h
  · have := dayFromYear_mono (show yearFromDay z + 1 ≤ y by omega)
    omega
  · exact h
  · have := dayFromYear_mono (show y + 1 ≤ yearFromDay z by omega)
    omega

/-- The extracted month is one of the twelve months. -/
lemma monthIn_bounds (p d : Int) : 0 ≤ monthIn p d ∧ monthIn p d ≤ 11 := by
  unfold monthIn
  omega

/-- Within one year, the extracted month's start is at or before the day
and the extracted day of month is valid for that month. -/
lemma dateIn_valid {p d : Int} (hp0 : 0 ≤ p) (hp1 : p ≤ 1) (h0 : 0 ≤ d)
    (h1 : d < 365 + p) :
    monthStart p (monthIn p d) ≤ d ∧ 1 ≤ dateIn p d ∧
      dateIn p d ≤ daysInMonthP p (monthIn p d) := by
  unfold dateIn monthStart monthIn daysInMonthP
  omega

/-- The month extractor recovers the month from a month start plus a
valid day offset. -/
lemma monthIn_monthStart {p m e : Int} (hp0 : 0 ≤ p) (hp1 : p ≤ 1)
    (hm0 : 0 ≤ m) (hm1 : m ≤ 11) (he0 : 0 ≤ e) (he1 : e < daysInMonthP p m) :
    monthIn p (monthStart p m + e) = m := by
  unfold daysInMonthP at he1
  unfold monthIn monthStart
  omega

/-- Month starts are nonnegative and a month fits inside its year. -/
lemma monthStart_bounds {p m : Int} (hp0 : 0 ≤ p) (hp1 : p ≤ 1)
    (hm0 : 0 ≤ m) (hm1 : m ≤ 11) :
    0 ≤ monthStart p m ∧ monthStart p m + daysInMonthP p m ≤ 365 + p := by
  unfold monthStart daysInMonthP
  omega

/-- Recomposition: a day number is its year's first day plus the month
start plus the day of month. -/
lemma makeDay_civil (z : Int) :
    makeDay (yearFromDay z) (monthFromDay z) (dateFromDay z) = z := by
  obtain ⟨hm0, hm1⟩ :=
    monthIn_bounds (leapDays (yearFromDay z)) (z - dayFromYear (yearFromDay z))
  simp only [monthFromDay, dateFromDay, dateIn] at hm0 hm1 ⊢
  simp only [makeDay,
    show monthIn (leapDays (yearFromDay z)) (z - dayFromYear (yearFromDay z)) / 12 = 0
      from by omega,
    show monthIn (leapDays (yearFromDay z)) (z - dayFromYear (yearFromDay z)) % 12 =
      monthIn (leapDays (yearFromDay z)) (z - dayFromYear (yearFromDay z))
      from by omega, add_zero]
  omega

/-- The day-within-year of any day number is a valid offset into its year. -/
lemma dayWithinYear_bounds (z : Int) :
    0 ≤ z - dayFromYear (yearFromDay z) ∧
      z - dayFromYear (yearFromDay z) < 365 + leapDays (yearFromDay z) := by
  obtain ⟨hy1, hy2⟩ := yearFromDay_spec z
  have hgap := dayFromYear_succ (yearFromDay z)
  omega

/-- The extracted day of month is valid for the extracted month. -/
lemma dateFromDay_valid (z : Int) :
    1 ≤ dateFromDay z ∧
      dateFromDay z ≤ daysInMonth (yearFromDay z) (monthFromDay z) := by
  obtain ⟨h0, h1⟩ := dayWithinYear_bounds z
  obtain ⟨hp0, hp1⟩ := leapDays_bounds (yearFromDay z)
  obtain ⟨-, h2, h3⟩ := dateIn_valid hp0 hp1 h0 h1
  exact ⟨h2, h3⟩

/-- Inverse roundtrip: `makeDay` of a valid civil triple decomposes back
into exactly that triple. -/
lemma civil_makeDay {y m d : Int} (hm0 : 0 ≤ m) (hm1 : m ≤ 11)
    (hd0 : 1 ≤ d) (hd1 : d ≤ daysInMonth y m) :
    yearFromDay (makeDay y m d) = y ∧ monthFromDay (makeDay y m d) = m ∧
      dateFromDay (makeDay y m d) = d := by
  have hgap := dayFromYear_succ y
  obtain ⟨hp0, hp1⟩ := leapDays_bounds y
  simp only [daysInMonth] at hd1
  have hmd : makeDay y m d = dayFromYear y + monthStart (leapDays y) m + d - 1 := by
    simp only [makeDay, show m / 12 = 0 from by omega,
      show m % 12 = m from by omega, add_zero]
  obtain ⟨hms0, hms1⟩ := monthStart_bounds hp0 hp1 hm0 hm1
  have hyear : yearFromDay (makeDay y m d) = y :=
    yearFromDay_eq (by omega) (by omega)
  have harg : makeDay y m d - dayFromYear y =
      monthStart (leapDays y) m + (d - 1) := by omega
  have hmonth : monthFromDay (makeDay y m d) = m := by
    simp only [monthFromDay, hyear, harg]
    exact monthIn_monthStart hp0 hp1 hm0 hm1 (by omega) (by omega)
  refine ⟨hyear, hmonth, ?_⟩
  simp only [dateFromDay, hyear, harg, dateIn,
    monthIn_monthStart hp0 hp1 hm0 hm1 (show (0:Int) ≤ d - 1 from by omega)
      (show d - 1 < daysInMonthP (leapDays y) m from by omega)]
  omega

/-- `makeDay` is linear in the day argument. -/
lemma makeDay_linear (y m d : Int) : makeDay y m d = makeDay y m 1 + (d - 1) := by
  simp only [makeDay]
  ring

/-- Consecutive month firsts are 28 to 31 days apart, across year
boundaries included. -/
lemma makeDay_month_gap (y m : Int) :
    28 ≤ makeDay y (m + 1) 1 - makeDay y m 1 ∧
      makeDay y (m + 1) 1 - makeDay y m 1 ≤ 31 := by
  obtain ⟨hp0, hp1⟩ := leapDays_bounds (y + m / 12)
  have hgap := dayFromYear_succ (y + m / 12)
  by_cases h : m % 12 = 11
  · have h1 : (m + 1) / 12 = m / 12 + 1 := by omega
    have h2 : (m + 1) % 12 = 0 := by omega
    simp only [makeDay, h1, h2, h]
    rw [show y + (m / 12 + 1) = y + m / 12 + 1 from by ring]
    unfold monthStart
    omega
  · have h1 : (m + 1) / 12 = m / 12 := by omega
    have h2 : (m + 1) % 12 = m % 12 + 1 := by omega
    have hr : 0 ≤ m % 12 ∧ m % 12 ≤ 10 := by omega
    simp only [makeDay, h1, h2]
    unfold monthStart
    omega

/-- Moving `k ≥ 1` months ahead advances the month first by at least
`28 · k` days. -/
lemma makeDay_month_mono (y m : Int) {k : Int} (hk : 1 ≤ k) :
    makeDay y m 1 + 28 * k ≤ makeDay y (m + k) 1 := by
  refine Int.le_induction (P := fun j => makeDay y m 1 + 28 * j ≤ makeDay y (m + j) 1)
    ?_ ?_ k hk
  · have := makeDay_month_gap y m
    omega
  · intro n hn ih
    have h1 := makeDay_month_gap y (m + n)
    rw [show m + (n + 1) = m + n + 1 from by ring]
    omega

/-- A `setMonth` jump of `k ≥ 1` months moves a date at least 28 days
forward. -/
lemma jsAddMonths_ge {z k : Int} (hk : 1 ≤ k) : z + 28 * k ≤ jsAddMonths z k := by
  have hz := makeDay_civil z
  have h1 := makeDay_linear (yearFromDay z) (monthFromDay z) (dateFromDay z)
  have h2 := makeDay_linear (yearFromDay z) (monthFromDay z + k) (dateFromDay z)
  have h3 := makeDay_month_mono (yearFromDay z) (monthFromDay z) hk
  simp only [jsAddMonths]
  omega

/-- Year starts grow by at least 363 days per year stepped. -/
lemma dayFromYear_growth {a k : Int} (hk : 1 ≤ k) :
    dayFromYear a + 363 * k ≤ dayFromYear (a + k) := by
  simp only [dayFromYear]
  omega

/-- Month starts for the same month in different years differ by at most
one day. -/
lemma monthStart_leap_diff {p q m : Int} (hp0 : 0 ≤ p) (hp1 : p ≤ 1)
    (hq0 : 0 ≤ q) (hq1 : q ≤ 1) :
    monthStart p m - monthStart q m ≤ 1 ∧ monthStart q m - monthStart p m ≤ 1 := by
  unfold monthStart
  omega

/-- A `setFullYear` jump of `k ≥ 1` years moves a date at least 362 days
forward. -/
lemma jsAddYears_ge {z k : Int} (hk : 1 ≤ k) : z + 362 ≤ jsAddYears z k := by
  have hz := makeDay_civil z
  obtain ⟨hm0, hm1⟩ :=
    monthIn_bounds (leapDays (yearFromDay z)) (z - dayFromYear (yearFromDay z))
  have hm0' : 0 ≤ monthFromDay z := hm0
  have hm1' : monthFromDay z ≤ 11 := hm1
  have hdiv : monthFromDay z / 12 = 0 := by omega
  have hmod : monthFromDay z % 12 = monthFromDay z := by omega
  have hgrow := dayFromYear_growth (a := yearFromDay z) hk
  obtain ⟨hp0, hp1⟩ := leapDays_bounds (yearFromDay z)
  obtain ⟨hq0, hq1⟩ := leapDays_bounds (yearFromDay z + k)
  obtain ⟨hd1, hd2⟩ := monthStart_leap_diff (m := monthFromDay z) hp0 hp1 hq0 hq1
  simp only [jsAddYears, makeDay, hdiv, hmod, add_zero] at hz ⊢
  omega
/-- `makeDay` normalizes out-of-range months into the year. -/
lemma makeDay_normalize (y m d : Int) :
    makeDay y m d = makeDay (y + m / 12) (m % 12) d := by
  have h1 : m % 12 / 12 = 0 := by omega
  have h2 : m % 12 % 12 = m % 12 := by omega
  simp only [makeDay, h1, h2, add_zero]

/-- Every month has 28 to 31 days. -/
lemma daysInMonthP_bounds {p : Int} (hp0 : 0 ≤ p) (hp1 : p ≤ 1) (m : Int) :
    28 ≤ daysInMonthP p m ∧ daysInMonthP p m ≤ 31 := by
  unfold daysInMonthP
  omega

/-- A day offset beyond a month's length rolls into the following month. -/
lemma makeDay_overflow {Y M : Int} (hM0 : 0 ≤ M) (hM1 : M ≤ 11) (e : Int) :
    makeDay Y M (daysInMonth Y M + e) = makeDay Y (M + 1) e := by
  have hgap := dayFromYear_succ Y
  obtain ⟨hp0, hp1⟩ := leapDays_bounds Y
  by_cases h : M = 11
  · subst h
    have h1 : (11 + 1 : Int) / 12 = 1 := by norm_num
    have h2 : (11 + 1 : Int) % 12 = 0 := by norm_num
    have h3 : (11 : Int) / 12 = 0 := by norm_num
    have h4 : (11 : Int) % 12 = 11 := by norm_num
    simp only [makeDay, daysInMonth, h1, h2, h3, h4, add_zero]
    unfold monthStart daysInMonthP
    omega
  · have h1 : (M + 1) / 12 = 0 := by omega
    have h2 : (M + 1) % 12 = M + 1 := by omega
    simp only [makeDay, daysInMonth, show M / 12 = 0 from by omega,
      show M % 12 = M from by omega, h1, h2, add_zero]
    unfold monthStart daysInMonthP
    omega

/-- Bounds on the extracted month of any day number. -/
lemma monthFromDay_bounds (z : Int) : 0 ≤ monthFromDay z ∧ monthFromDay z ≤ 11 :=
  monthIn_bounds (leapDays (yearFromDay z)) (z - dayFromYear (yearFromDay z))

/-- Full characterization of a `setMonth` jump: writing the target month
as `Y`/`M`, the day of month is preserved whenever the target month is
long enough, and otherwise the date rolls over into the month after `M`
by the excess days.  The result is always a valid calendar date. -/
lemma jsAddMonths_spec {z k Y M : Int}
    (hY : Y = yearFromDay z + (monthFromDay z + k) / 12)
    (hM : M = (monthFromDay z + k) % 12) :
    (dateFromDay z ≤ daysInMonth Y M →
      yearFromDay (jsAddMonths z k) = Y ∧
      monthFromDay (jsAddMonths z k) = M ∧
      dateFromDay (jsAddMonths z k) = dateFromDay z) ∧
    (daysInMonth Y M < dateFromDay z →
      yearFromDay (jsAddMonths z k) = Y + (M + 1) / 12 ∧
      monthFromDay (jsAddMonths z k) = (M + 1) % 12 ∧
      dateFromDay (jsAddMonths z k) = dateFromDay z - daysInMonth Y M) := by
  obtain ⟨hd1, hd2⟩ := dateFromDay_valid z
  have hnorm : jsAddMonths z k = makeDay Y M (dateFromDay z) := by
    rw [jsAddMonths, makeDay_normalize (yearFromDay z) (monthFromDay z + k)
      (dateFromDay z), ← hY, ← hM]
  have hM0 : 0 ≤ M := by rw [hM]; omega
  have hM1 : M ≤ 11 := by rw [hM]; omega
  constructor
  · intro hle
    rw [hnorm]
    exact civil_makeDay hM0 hM1 hd1 hle
  · intro hlt
    obtain ⟨hpY0, hpY1⟩ := leapDays_bounds Y
    have hdimY := daysInMonthP_bounds hpY0 hpY1 M
    have hdimZ := daysInMonthP_bounds (leapDays_bounds (yearFromDay z)).1
      (leapDays_bounds (yearFromDay z)).2 (monthFromDay z)
    have hd31 : dateFromDay z ≤ 31 := le_trans hd2 hdimZ.2
    have hsplit : daysInMonth Y M + (dateFromDay z - daysInMonth Y M) =
        dateFromDay z := by ring
    have hover := makeDay_overflow hM0 hM1 (dateFromDay z - daysInMonth Y M)
      (Y := Y) (M := M)
    rw [hsplit] at hover
    have hnorm2 : makeDay Y (M + 1) (dateFromDay z - daysInMonth Y M) =
        makeDay (Y + (M + 1) / 12) ((M + 1) % 12)
          (dateFromDay z - daysInMonth Y M) :=
      makeDay_normalize Y (M + 1) (dateFromDay z - daysInMonth Y M)
    have hM20 : 0 ≤ (M + 1) % 12 := by omega
    have hM21 : (M + 1) % 12 ≤ 11 := by omega
    have hdim2 := daysInMonthP_bounds (leapDays_bounds (Y + (M + 1) / 12)).1
      (leapDays_bounds (Y + (M + 1) / 12)).2 ((M + 1) % 12)
    have he0 : 1 ≤ dateFromDay z - daysInMonth Y M := by
      simp only [daysInMonth] at hlt ⊢
      omega
    have he1 : dateFromDay z - daysInMonth Y M ≤
        daysInMonth (Y + (M + 1) / 12) ((M + 1) % 12) := by
      simp only [daysInMonth] at hlt he0 hdimY hdim2 ⊢
      omega
    rw [hnorm, hover, hnorm2]
    exact civil_makeDay hM20 hM21 he0 he1

/-! ## Helper lemmas about the engine -/

/-- When no write among the batch fails, every scheduled child is
created and every write is attempted. -/
lemma runChildWrites_noFail (childFails : Nat → Bool) (mkChild : Int → RecordData) :
    ∀ (dates : List Int) (i : Nat),
      (∀ j, j < dates.length → childFails (i + j) = false) →
      runChildWrites childFails mkChild i dates = (dates.map mkChild, dates.length) := by
  intro dates
  induction dates with
  | nil => intro i _; rfl
  | cons d rest ih =>
    intro i h
    have h0 : childFails i = false := by
      have := h 0 (by simp)
      simpa using this
    have hrest := ih (i + 1) fun j hj => by
      have h2 := h (j + 1) (by simpa using Nat.succ_lt_succ hj)
      rw [show i + 1 + j = i + (j + 1) from by omega]
      exact h2
    simp only [runChildWrites, h0, Bool.false_eq_true, if_false, hrest,
      List.map_cons, List.length_cons]

/-- When the first failing write is the `j`-th of the batch, exactly the
`j` earlier children are created, `j + 1` writes are attempted, and the
writes after the failing one are not attempted. -/
lemma runChildWrites_firstFail (childFails : Nat → Bool) (mkChild : Int → RecordData) :
    ∀ (dates : List Int) (i j : Nat),
      j < dates.length → childFails (i + j) = true →
      (∀ j', j' < j → childFails (i + j') = false) →
      runChildWrites childFails mkChild i dates =
        ((dates.take j).map mkChild, j + 1) := by
  intro dates
  induction dates with
  | nil => intro i j hj; simp at hj
  | cons d rest ih =>
    intro i j hj hf hbefore
    cases j with
    | zero =>
      have h0 : childFails i = true := by simpa using hf
      simp only [runChildWrites, h0, if_true, List.take_zero, List.map_nil]
    | succ j' =>
      have h0 : childFails i = false := by
        have := hbefore 0 (Nat.succ_pos _)
        simpa using this
      have hf' : childFails (i + 1 + j') = true := by
        rw [show i + 1 + j' = i + (j' + 1) from by omega]
        exact hf
      have hb' : ∀ j'', j'' < j' → childFails (i + 1 + j'') = false := fun j'' hj'' => by
        rw [show i + 1 + j'' = i + (j'' + 1) from by omega]
        exact hbefore (j'' + 1) (by omega)
      have hrest := ih (i + 1) j' (by simpa using Nat.lt_of_succ_lt_succ hj) hf' hb'
      simp only [runChildWrites, h0, Bool.false_eq_true, if_false, hrest,
        List.take_succ_cons, List.map_cons]

/-- The created and attempted counts never exceed the batch size. -/
lemma runChildWrites_le (childFails : Nat → Bool) (mkChild : Int → RecordData) :
    ∀ (dates : List Int) (i : Nat),
      (runChildWrites childFails mkChild i dates).1.length ≤ dates.length ∧
      (runChildWrites childFails mkChild i dates).2 ≤ dates.length := by
  intro dates
  induction dates with
  | nil => intro i; simp [runChildWrites]
  | cons d rest ih =>
    intro i
    by_cases h : childFails i = true
    · simp [runChildWrites, h]
    · have h' : childFails i = false := by simpa using h
      have := ih (i + 1)
      simp only [runChildWrites, h', Bool.false_eq_true, if_false,
        List.length_cons]
      constructor <;> omega

/-- A step of the recurrence pattern strictly advances the date when the
pattern is one of the four recognized units and the interval is at least
one. -/
lemma nextOccurrence_progress {recurringType : String} {k : Int}
    (hrt : recurringType = "daily" ∨ recurringType = "weekly" ∨
      recurringType = "monthly" ∨ recurringType = "yearly")
    (hk : 1 ≤ k) (z : Int) : z + 1 ≤ nextOccurrence recurringType k z := by
  rcases hrt with h | h | h | h <;> subst h <;> unfold nextOccurrence
  · rw [if_pos rfl]; omega
  · rw [if_neg (by decide), if_pos rfl]; omega
  · rw [if_neg (by decide), if_neg (by decide), if_pos rfl]
    have := jsAddMonths_ge (z := z) hk
    omega
  · rw [if_neg (by decide), if_neg (by decide), if_neg (by decide), if_pos rfl]
    have := jsAddYears_ge (z := z) hk
    omega

/-- With interval 0 no pattern advances the date. -/
lemma nextOccurrence_zero (recurringType : String) (z : Int) :
    nextOccurrence recurringType 0 z = z := by
  unfold nextOccurrence
  have hm : jsAddMonths z 0 = z := by
    have := makeDay_civil z
    simpa [jsAddMonths] using this
  have hy : jsAddYears z 0 = z := by
    have := makeDay_civil z
    simpa [jsAddYears] using this
  split_ifs <;> simp [hm, hy]

/-- Once the loop guard is false the loop returns immediately with no
dates, whatever the fuel. -/
lemma generateFutureDates_done {recurringType : String} {k endDate c : Int}
    (h : ¬ c < endDate) (fuel : Nat) :
    generateFutureDates recurringType k endDate fuel c = some [] := by
  cases fuel <;> simp [generateFutureDates, h]

/-- With a strictly advancing step, fuel at least the day distance to the
end date makes the loop terminate. -/
lemma generateFutureDates_isSome {recurringType : String} {k endDate : Int}
    (hstep : ∀ z, z + 1 ≤ nextOccurrence recurringType k z) :
    ∀ (fuel : Nat) (c : Int), endDate - c ≤ (fuel : Int) →
      (generateFutureDates recurringType k endDate fuel c).isSome := by
  intro fuel
  induction fuel with
  | zero =>
    intro c h
    have : ¬ c < endDate := by omega
    simp [generateFutureDates, this]
  | succ n ih =>
    intro c h
    by_cases hc : c < endDate
    · have h1 := hstep c
      have h2 : endDate - nextOccurrence recurringType k c ≤ (n : Int) := by
        push_cast at h ⊢
        omega
      have h3 := ih (nextOccurrence recurringType k c) h2
      simp only [generateFutureDates, hc, if_true]
      cases hgen : generateFutureDates recurringType k endDate n
          (nextOccurrence recurringType k c) with
      | none => rw [hgen] at h3; simp at h3
      | some rest => simp
    · simp [generateFutureDates, hc]

/-- With interval 0 the loop never terminates once its guard holds:
every fuel budget is exhausted. -/
lemma generateFutureDates_zero_none (recurringType : String) {endDate c : Int}
    (hc : c < endDate) :
    ∀ fuel : Nat, generateFutureDates recurringType 0 endDate fuel c = none := by
  intro fuel
  induction fuel with
  | zero => simp [generateFutureDates, hc]
  | succ n ih => simp [generateFutureDates, hc, nextOccurrence_zero, ih]

/-- With a strictly advancing step, every generated date is strictly
after the starting date. -/
lemma generateFutureDates_gt {recurringType : String} {k endDate : Int}
    (hstep : ∀ z, z + 1 ≤ nextOccurrence recurringType k z) :
    ∀ (fuel : Nat) (c : Int) (dates : List Int),
      generateFutureDates recurringType k endDate fuel c = some dates →
      ∀ d ∈ dates, c < d := by
  intro fuel
  induction fuel with
  | zero =>
    intro c dates h
    by_cases hc : c < endDate <;> simp [generateFutureDates, hc] at h
    subst h
    simp
  | succ n ih =>
    intro c dates h
    by_cases hc : c < endDate
    · simp only [generateFutureDates, hc, if_true] at h
      cases hgen : generateFutureDates recurringType k endDate n
          (nextOccurrence recurringType k c) with
      | none => rw [hgen] at h; simp at h
      | some rest =>
        rw [hgen] at h
        simp only [Option.some_inj] at h
        have hnext := hstep c
        have hrest := ih (nextOccurrence recurringType k c) rest hgen
        intro d hd
        rw [← h] at hd
        by_cases hle : nextOccurrence recurringType k c ≤ endDate
        · rw [if_pos hle] at hd
          rcases List.mem_cons.mp hd with rfl | hd'
          · omega
          · have := hrest d hd'
            omega
        · rw [if_neg hle] at hd
          have := hrest d hd
          omega
    · rw [generateFutureDates_done hc (n + 1)] at h
      simp only [Option.some_inj] at h
      subst h
      simp

/-- When even the first computed occurrence exceeds the end date, the
loop produces no dates. -/
lemma generateFutureDates_empty {recurringType : String} {k endDate c : Int}
    (hgt : endDate < nextOccurrence recurringType k c) (fuel : Nat) (dates : List Int)
    (h : generateFutureDates recurringType k endDate fuel c = some dates) :
    dates = [] := by
  by_cases hc : c < endDate
  · cases fuel with
    | zero => simp [generateFutureDates, hc] at h
    | succ n =>
      simp only [generateFutureDates, hc, if_true] at h
      rw [generateFutureDates_done (by omega) n] at h
      simp only [Option.some_inj] at h
      rw [if_neg (by omega)] at h
      exact h.symm
  · rw [generateFutureDates_done hc fuel] at h
    simpa using h.symm

/-- Whenever validation passes, the parent write succeeds and the child
phase finishes, `createRecord` reports success with the parent record:
child failures recorded by the child phase never surface. -/
lemma createRecord_ok {formData : FormData} {photos : List String} {rvId : String}
    {today : Int} {store : StoreModel} {fuel : Nat} {baseDay : Int}
    {created : List RecordData} {attempted : Nat}
    (hval : validateSubmit formData today = none)
    (hdate : parseDateYMD formData.date = some baseDay)
    (hpar : store.parentOk = true)
    (hrec : formData.isRecurring = true)
    (hgen : createRecurringRecords formData rvId store.parentId store.childFails fuel =
      some (created, attempted)) :
    createRecord formData photos rvId today store fuel =
      some (.ok (parentRecordData formData photos rvId baseDay, created, attempted)) := by
  simp [createRecord, hval, hdate, hpar, hrec, hgen]

/-! ### Sanity checks on concrete dates and labels -/

-- Sanity: the epoch and a few known dates.
example : dayFromYear 1970 = 0 := by decide
example : makeDay 1970 0 1 = 0 := by decide
example : makeDay 2025 0 31 = 20119 := by decide
example : yearFromDay 20119 = 2025 := by decide
example : monthFromDay 20119 = 0 := by decide
example : dateFromDay 20119 = 31 := by decide
-- Jan 31 2025 plus one JS month is Mar 3 2025 (Feb 31 rolls over).
example : jsAddMonths 20119 1 = makeDay 2025 2 3 := by decide
-- Feb 29 2024 plus one JS year is Mar 1 2025.
example : jsAddYears (makeDay 2024 1 29) 1 = makeDay 2025 2 1 := by decide

-- The sentinel test on the source's dropdown labels.
example : typeIncludesCompleted "Completed" = true := by decide
example : typeIncludesCompleted "Completed Service" = true := by decide
example : typeIncludesCompleted "Repair" = false := by decide

/-! ## The claims -/

/-- C3, counterexample: the cited classifiers do no midnight
normalization.  A non-completed record stamped midnight 2025-01-15 is
classified against a "now" of noon the same calendar day — the same
calendar day, yet the result is Overdue, where the claim requires
Upcoming. -/
theorem c3_counterexample :
    typeIncludesCompleted "Repair" = false ∧
    getStatus "Repair" (makeDay 2025 0 15 * msPerDay)
      (makeDay 2025 0 15 * msPerDay + 43200000) = Status.overdue := by
  constructor
  · decide
  · decide

/-- C3, amended: `getStatus` compares the full time values with no
normalization to midnight — for a non-completed record the status is
Overdue exactly when the record's timestamp is strictly before "now"; in
particular a record stamped exactly at "now" is Upcoming and one stamped
a day earlier is Overdue, but a record stamped earlier within the same
calendar day as "now" is already Overdue. -/
theorem c3_amended (typeLabel : String) (recordDate now : Int)
    (h : typeIncludesCompleted typeLabel = false) :
    (getStatus typeLabel recordDate now = Status.overdue ↔ recordDate < now) ∧
    getStatus typeLabel now now = Status.upcoming ∧
    getStatus typeLabel (now - msPerDay) now = Status.overdue := by
  simp only [getStatus, h, Bool.false_eq_true, if_false]
  refine ⟨?_, ?_, ?_⟩
  · by_cases hd : recordDate < now
    · simp [hd]
    · simp [hd]
  · rw [if_neg (lt_irrefl now)]
  · rw [if_pos (by unfold msPerDay; omega)]

/-- C3, witness for the amended theorem at a concrete non-completed
record. -/
theorem c3_witness :
    (getStatus "Repair" 5 10 = Status.overdue ↔ (5 : Int) < 10) ∧
    getStatus "Repair" 10 10 = Status.upcoming ∧
    getStatus "Repair" (10 - msPerDay) 10 = Status.overdue :=
  c3_amended "Repair" 5 10 (by decide)

/-- C4, counterexample: a submission with recurrence interval 0 and
every other field valid passes `handleSubmit`'s validation — no
`ValidationError` is raised, where the claim requires one. -/
theorem c4_counterexample :
    validateSubmit zeroIntervalForm sampleNow = none ∧
    zeroIntervalForm.recurringInterval < 1 := by
  constructor
  · decide
  · decide

/-- C4, amended: `createRecord`'s synchronous validation never examines
the recurrence interval — its outcome is unchanged under any replacement
of the interval, so a non-positive interval is not rejected; the only
interval guard in the source is the form input handler's clamp
`Math.max(1, parseInt(value) || 1)`, which keeps every interval entered
through the form at 1 or more. -/
theorem c4_amended :
    (∀ (formData : FormData) (k : Int) (today : Int),
      validateSubmit (setIntervalField formData k) today =
        validateSubmit formData today) ∧
    (∀ v : Option Int, 1 ≤ handleChangeInterval v) := by
  constructor
  · intro formData k today
    rfl
  · intro v
    exact le_max_left 1 _

/-- C7: on the sample collection — records dated now−5d and now+3d of
type "Repair" and now−1d of type "Completed Service" — the dashboard
aggregation reports one completed, one overdue and one upcoming record,
for every "now". -/
theorem c7_claim (now : Int) :
    getMaintenanceCounts (aggregationSample now) now =
      { completed := 1, overdue := 1, upcoming := 1 } := by
  have h1 : typeIncludesCompleted "Repair" = false := by decide
  have h2 : typeIncludesCompleted "Completed Service" = true := by decide
  have e1 : decide (now - 5 * msPerDay < now) = true := by
    simp only [decide_eq_true_eq, msPerDay]; omega
  have e2 : decide (now + 3 * msPerDay < now) = false := by
    simp only [decide_eq_false_iff_not, msPerDay]; omega
  have e3 : decide (now ≤ now - 5 * msPerDay) = false := by
    simp only [decide_eq_false_iff_not, msPerDay]; omega
  have e4 : decide (now ≤ now + 3 * msPerDay) = true := by
    simp only [decide_eq_true_eq, msPerDay]; omega
  have e5 : decide (now - msPerDay < now) = true := by
    simp only [decide_eq_true_eq, msPerDay]; omega
  have e6 : decide (now ≤ now - msPerDay) = false := by
    simp only [decide_eq_false_iff_not, msPerDay]; omega
  simp [getMaintenanceCounts, aggregationSample, mkRecord, List.filter_cons,
    List.filter_nil, h1, h2, e1, e2, e3, e4, e5, e6, msPerDay]

/-- C8: completing a record is idempotent — when `markCompleted`
succeeds, running it again on the same id with the same updates succeeds
and leaves the store unchanged, and the record carries the sentinel type
`"Completed"` (the sentinel is simply reasserted; nothing guards against
re-completing). -/
theorem c8_claim (store s1 : List MaintenanceRecord) (id : String) (u : UpdateData)
    (h : markCompleted store id u = some s1) :
    markCompleted s1 id u = some s1 ∧
      ∀ r ∈ s1, r.id = id → r.type = "Completed" := by
  unfold markCompleted updateRecord at h ⊢
  by_cases hany : store.any (fun r => r.id == id) = true
  · rw [if_pos hany] at h
    have hs1 : s1 = store.map
        (fun r => if r.id == id then rewriteRecord r "Completed" u else r) :=
      (Option.some_inj.mp h).symm
    have hid : ∀ r : MaintenanceRecord,
        (if r.id == id then rewriteRecord r "Completed" u else r).id = r.id := by
      intro r
      by_cases hr : (r.id == id) = true <;> simp [rewriteRecord, hr]
    have hany1 : s1.any (fun r => r.id == id) = true := by
      rw [hs1, List.any_map]
      have hcomp : ((fun r : MaintenanceRecord => r.id == id) ∘
          fun r => if r.id == id then rewriteRecord r "Completed" u else r) =
          fun r => r.id == id := by
        funext r
        by_cases hr : (r.id == id) = true
        · simp [Function.comp, hr, rewriteRecord]
        · simp [Function.comp, hr]
      rw [hcomp]
      exact hany
    rw [if_pos hany1]
    constructor
    · congr 1
      rw [hs1, List.map_map]
      have hff : ((fun r : MaintenanceRecord =>
          if r.id == id then rewriteRecord r "Completed" u else r) ∘
          fun r => if r.id == id then rewriteRecord r "Completed" u else r) =
          fun r => if r.id == id then rewriteRecord r "Completed" u else r := by
        funext r
        by_cases hr : (r.id == id) = true
        · simp [Function.comp, hr, rewriteRecord]
        · simp [Function.comp, hr]
      rw [hff]
    · intro r hr hrid
      rw [hs1] at hr
      obtain ⟨r0, hr0, rfl⟩ := List.mem_map.mp hr
      by_cases h0 : (r0.id == id) = true
      · simp [h0, rewriteRecord]
      · exfalso
        apply h0
        rw [if_neg h0] at hrid
        simp [hrid]
  · rw [if_neg hany] at h
    exact absurd h (by simp)

/-- C8, witness: completing the one-record store puts the sentinel on
record `r1`, and the theorem applies to re-complete it with no change. -/
theorem c8_witness :
    markCompleted completionStore "r1" completionUpdate = some completionStoreAfter ∧
    (markCompleted completionStoreAfter "r1" completionUpdate =
        some completionStoreAfter ∧
      ∀ r ∈ completionStoreAfter, r.id = "r1" → r.type = "Completed") :=
  ⟨by decide,
    c8_claim completionStore completionStoreAfter "r1" completionUpdate (by decide)⟩

/-- C9: the three classification predicates partition every collection —
each record satisfies exactly one of them, and the three counts always
sum to the collection's size. -/
theorem c9_claim (maintenanceRecords : List MaintenanceRecord) (today : Int) :
    (getMaintenanceCounts maintenanceRecords today).completed +
      (getMaintenanceCounts maintenanceRecords today).overdue +
      (getMaintenanceCounts maintenanceRecords today).upcoming =
      maintenanceRecords.length ∧
    ∀ record : MaintenanceRecord,
      ((if typeIncludesCompleted record.type then 1 else 0) +
        (if !typeIncludesCompleted record.type && decide (record.date < today)
          then 1 else 0) +
        (if !typeIncludesCompleted record.type && decide (record.date ≥ today)
          then 1 else 0) : Nat) = 1 := by
  constructor
  · induction maintenanceRecords with
    | nil => rfl
    | cons r rest ih =>
      simp only [getMaintenanceCounts, List.filter_cons, List.length_cons] at ih ⊢
      by_cases h : typeIncludesCompleted r.type = true
      · simp only [h, if_true, Bool.not_true, Bool.false_and, Bool.false_eq_true,
          if_false, List.length_cons]
        omega
      · have h' : typeIncludesCompleted r.type = false := by simpa using h
        by_cases hd : r.date < today
        · have hd2 : ¬ (r.date ≥ today) := by omega
          simp only [h', Bool.false_eq_true, if_false, Bool.not_false, Bool.true_and,
            decide_eq_true hd, decide_eq_false hd2, if_true, List.length_cons]
          omega
        · have hd2 : r.date ≥ today := by omega
          simp only [h', Bool.false_eq_true, if_false, Bool.not_false, Bool.true_and,
            decide_eq_false hd, decide_eq_true hd2, if_true, List.length_cons]
          omega
  · intro record
    by_cases h : typeIncludesCompleted record.type = true
    · simp [h]
    · have h' : typeIncludesCompleted record.type = false := by simpa using h
      by_cases hd : record.date < today
      · have hd2 : ¬ (record.date ≥ today) := by omega
        simp [h', hd, hd2]
      · have hd2 : record.date ≥ today := by omega
        simp [h', hd, hd2]

/-- C10: with one of the four recognized units and an interval of at
least 1, the date-generation loop terminates — fuel covering the day
distance to the end date suffices, because every iteration strictly
advances the date; and the `interval ≥ 1` precondition is necessary:
with interval 0 (which validation does not reject) the date never
advances, and the loop runs forever — no fuel budget completes it. -/
theorem c10_claim (recurringType : String) (recurringInterval endDate : Int) :
    ((recurringType = "daily" ∨ recurringType = "weekly" ∨
        recurringType = "monthly" ∨ recurringType = "yearly") →
      1 ≤ recurringInterval →
      ∀ (fuel : Nat) (baseDate : Int), endDate - baseDate ≤ (fuel : Int) →
        (generateFutureDates recurringType recurringInterval endDate
          fuel baseDate).isSome) ∧
    (recurringInterval = 0 →
      ∀ (fuel : Nat) (baseDate : Int), baseDate < endDate →
        generateFutureDates recurringType recurringInterval endDate
          fuel baseDate = none) := by
  constructor
  · intro hrt hk fuel baseDate hfuel
    exact generateFutureDates_isSome (nextOccurrence_progress hrt hk) fuel baseDate hfuel
  · intro h0 fuel baseDate hlt
    subst h0
    exact generateFutureDates_zero_none recurringType hlt fuel

/-- C10, witness: a daily rule with interval 1 terminates within the day
distance, and the same rule with interval 0 exhausts any fuel. -/
theorem c10_witness :
    (generateFutureDates "daily" 1 10 12 0).isSome ∧
    generateFutureDates "daily" 0 10 5 0 = none :=
  ⟨(c10_claim "daily" 1 10).1 (Or.inl rfl) (by decide) 12 0 (by decide),
    (c10_claim "daily" 0 10).2 rfl 5 0 (by decide)⟩

set_option maxRecDepth 80000 in
/-- C1, counterexample: for the daily rule with 365 computable
occurrences, 10 child writes are scheduled; when every write succeeds
all 10 are attempted, but when the store fails on the 3rd write (index
2), only 3 writes are attempted — the 7 writes after the failure are
never issued, where the claim requires all 9 other writes to still be
attempted.  The operation still reports success with 2 children kept. -/
theorem c1_counterexample :
    createSummary (createRecord dailyYearForm [] "rv1" sampleNow
        { parentOk := true, parentId := "p1", childFails := fun i => decide (i = 2) }
        400) = some (2, 3) ∧
    createSummary (createRecord dailyYearForm [] "rv1" sampleNow
        { parentOk := true, parentId := "p1", childFails := fun _ => false }
        400) = some (10, 10) := by
  constructor
  · decide
  · decide

/-- C1, amended: a store failure during child creation is caught by the
single try/catch wrapping the whole loop — when the first failing write
is the `(j+1)`-th of the batch, the `j` earlier children are kept and
`j + 1` writes are attempted (the writes after the failure are
abandoned); and whatever the child phase reports, `createRecord` still
returns the parent record successfully. -/
theorem c1_claim :
    (∀ (childFails : Nat → Bool) (mkChild : Int → RecordData) (dates : List Int)
        (j : Nat),
      j < dates.length → childFails j = true →
      (∀ j', j' < j → childFails j' = false) →
      runChildWrites childFails mkChild 0 dates =
        ((dates.take j).map mkChild, j + 1)) ∧
    (∀ (formData : FormData) (photos : List String) (rvId : String) (today : Int)
        (store : StoreModel) (fuel : Nat) (baseDay : Int)
        (created : List RecordData) (attempted : Nat),
      validateSubmit formData today = none →
      parseDateYMD formData.date = some baseDay →
      store.parentOk = true →
      formData.isRecurring = true →
      createRecurringRecords formData rvId store.parentId store.childFails fuel =
        some (created, attempted) →
      createRecord formData photos rvId today store fuel =
        some (.ok (parentRecordData formData photos rvId baseDay,
          created, attempted))) := by
  constructor
  · intro childFails mkChild dates j hj hf hb
    apply runChildWrites_firstFail childFails mkChild dates 0 j hj
    · simpa using hf
    · intro j' hj'
      simpa using hb j' hj'
  · intro formData photos rvId today store fuel baseDay created attempted
      hval hdate hpar hrec hgen
    exact createRecord_ok hval hdate hpar hrec hgen

/-- C1, witness: with the 2nd write failing, one child is kept of three
scheduled and two writes are attempted; with no failure a short run
returns the parent with all three children. -/
theorem c1_witness :
    runChildWrites (fun i => decide (i = 1))
        (childRecordData dailyShortForm "rv1" "p1") 0 [5, 6, 7] =
      ([childRecordData dailyShortForm "rv1" "p1" 5], 2) ∧
    createRecord dailyShortForm [] "rv1" sampleNow
        { parentOk := true, parentId := "p1", childFails := fun _ => false } 10 =
      some (.ok (parentRecordData dailyShortForm [] "rv1" (makeDay 2025 0 1),
        [childRecordData dailyShortForm "rv1" "p1" (makeDay 2025 0 1 + 1),
         childRecordData dailyShortForm "rv1" "p1" (makeDay 2025 0 1 + 2),
         childRecordData dailyShortForm "rv1" "p1" (makeDay 2025 0 1 + 3)], 3)) := by
  constructor
  · have h := c1_claim.1 (fun i => decide (i = 1))
      (childRecordData dailyShortForm "rv1" "p1") [5, 6, 7] 1 (by decide) (by decide)
      (fun j' hj' => by
        simp only [decide_eq_false_iff_not]
        omega)
    exact h.trans (by decide)
  · exact c1_claim.2 dailyShortForm [] "rv1" sampleNow
      { parentOk := true, parentId := "p1", childFails := fun _ => false } 10
      (makeDay 2025 0 1)
      [childRecordData dailyShortForm "rv1" "p1" (makeDay 2025 0 1 + 1),
       childRecordData dailyShortForm "rv1" "p1" (makeDay 2025 0 1 + 2),
       childRecordData dailyShortForm "rv1" "p1" (makeDay 2025 0 1 + 3)] 3
      (by decide) (by decide) rfl rfl (by decide)

/-- C2, counterexample: expanding monthly from Jan 31 2025 with interval
1 and end date Jul 31 2025 yields Mar 3, Apr 3, May 3, Jun 3, Jul 3 —
the step from Jan 31 gives Mar 3, not the claimed clamped Feb 28, so
Feb 28 is never produced. -/
theorem c2_counterexample :
    generateFutureDates "monthly" 1 (makeDay 2025 6 31) 400 (makeDay 2025 0 31) =
      some [makeDay 2025 2 3, makeDay 2025 3 3, makeDay 2025 4 3,
        makeDay 2025 5 3, makeDay 2025 6 3] ∧
    jsAddMonths (makeDay 2025 0 31) 1 ≠ makeDay 2025 1 28 := by
  constructor
  · decide
  · decide

/-- C2, amended: a monthly expansion step preserves the day of month
whenever the target month is long enough; when it is not, the date is
not clamped but rolls over into the month after the target by the excess
days.  Either way the result is a valid calendar date (1-based day
within its month's length).  Expanding from Jan 31 2025 with monthly
interval 1 and end date Jul 31 2025 therefore yields Mar 3, Apr 3,
May 3, Jun 3, Jul 3. -/
theorem c2_amended {z k Y M : Int}
    (hY : Y = yearFromDay z + (monthFromDay z + k) / 12)
    (hM : M = (monthFromDay z + k) % 12) :
    (dateFromDay z ≤ daysInMonth Y M →
      yearFromDay (jsAddMonths z k) = Y ∧
      monthFromDay (jsAddMonths z k) = M ∧
      dateFromDay (jsAddMonths z k) = dateFromDay z) ∧
    (daysInMonth Y M < dateFromDay z →
      yearFromDay (jsAddMonths z k) = Y + (M + 1) / 12 ∧
      monthFromDay (jsAddMonths z k) = (M + 1) % 12 ∧
      dateFromDay (jsAddMonths z k) = dateFromDay z - daysInMonth Y M) ∧
    (1 ≤ dateFromDay (jsAddMonths z k) ∧
      dateFromDay (jsAddMonths z k) ≤
        daysInMonth (yearFromDay (jsAddMonths z k)) (monthFromDay (jsAddMonths z k))) ∧
    generateFutureDates "monthly" 1 (makeDay 2025 6 31) 400 (makeDay 2025 0 31) =
      some [makeDay 2025 2 3, makeDay 2025 3 3, makeDay 2025 4 3,
        makeDay 2025 5 3, makeDay 2025 6 3] := by
  obtain ⟨ha, hb⟩ := jsAddMonths_spec hY hM
  exact ⟨ha, hb, dateFromDay_valid (jsAddMonths z k), by decide⟩

/-- C2, witness: the amended theorem at Jan 31 2025 with interval 1 —
the target month February 2025 has 28 < 31 days, so the result rolls
over to March 3. -/
theorem c2_witness :
    yearFromDay (jsAddMonths (makeDay 2025 0 31) 1) = 2025 ∧
    monthFromDay (jsAddMonths (makeDay 2025 0 31) 1) = 2 ∧
    dateFromDay (jsAddMonths (makeDay 2025 0 31) 1) = 3 := by
  have h := (c2_amended (z := makeDay 2025 0 31) (k := 1) (Y := 2025) (M := 1)
    (by decide) (by decide)).2.1 (by decide)
  refine ⟨h.1, h.2.1, ?_⟩
  rw [h.2.2]
  decide

set_option maxRecDepth 80000 in
/-- C5: the child batch is capped — whatever the store and rule, at most
10 children are created and at most 10 writes attempted; and for the
daily rule with end date 365 days out (365 computable dates), exactly 10
child records are materialized, not 365. -/
theorem c5_claim :
    (∀ (formData : FormData) (rvId parentId : String) (childFails : Nat → Bool)
        (fuel : Nat) (created : List RecordData) (attempted : Nat),
      createRecurringRecords formData rvId parentId childFails fuel =
        some (created, attempted) →
      created.length ≤ 10 ∧ attempted ≤ 10) ∧
    ((createRecurringRecords dailyYearForm "rv1" "p1" (fun _ => false) 400).map
        (fun r => (r.1.length, r.2)) = some (10, 10)) := by
  constructor
  · intro formData rvId parentId childFails fuel created attempted h
    unfold createRecurringRecords at h
    split at h
    · rename_i baseDate endDate hbase hend
      split at h
      · exact absurd h (by simp)
      · rename_i futureDates hgen
        simp only [Option.some_inj] at h
        have hle := runChildWrites_le childFails
          (childRecordData formData rvId parentId) (futureDates.take 10) 0
        have htake : (futureDates.take 10).length ≤ 10 := by
          simp [List.length_take]
        rw [h] at hle
        simp only at hle
        exact ⟨by omega, by omega⟩
    · simp only [Option.some_inj, Prod.mk.injEq] at h
      obtain ⟨h1, h2⟩ := h
      subst h1
      subst h2
      simp
  · decide

/-- C5, witness: a three-occurrence run — the hypothesis of the cap
theorem holds concretely and the attempted count is under the cap. -/
theorem c5_witness :
    createRecurringRecords dailyShortForm "rv1" "p1" (fun _ => false) 10 =
      some ([childRecordData dailyShortForm "rv1" "p1" (makeDay 2025 0 1 + 1),
        childRecordData dailyShortForm "rv1" "p1" (makeDay 2025 0 1 + 2),
        childRecordData dailyShortForm "rv1" "p1" (makeDay 2025 0 1 + 3)], 3) ∧
    3 ≤ 10 := by
  refine ⟨by decide, ?_⟩
  exact (c5_claim.1 dailyShortForm "rv1" "p1" (fun _ => false) 10
    [childRecordData dailyShortForm "rv1" "p1" (makeDay 2025 0 1 + 1),
     childRecordData dailyShortForm "rv1" "p1" (makeDay 2025 0 1 + 2),
     childRecordData dailyShortForm "rv1" "p1" (makeDay 2025 0 1 + 3)] 3
    (by decide)).2

/-- C6: for every recognized unit with interval ≥ 1, the expansion never
contains the base date (every produced occurrence is strictly later),
and when even the first computed occurrence exceeds the end date the
expansion is empty — while `createRecord` still returns the parent
record successfully with no children (the degenerate parent). -/
theorem c6_claim (recurringType : String) (recurringInterval endDate : Int)
    (hrt : recurringType = "daily" ∨ recurringType = "weekly" ∨
      recurringType = "monthly" ∨ recurringType = "yearly")
    (hk : 1 ≤ recurringInterval) :
    (∀ (fuel : Nat) (baseDate : Int) (dates : List Int),
      generateFutureDates recurringType recurringInterval endDate fuel baseDate =
        some dates →
      (∀ d ∈ dates, baseDate < d) ∧
      (endDate < nextOccurrence recurringType recurringInterval baseDate →
        dates = [])) ∧
    (∀ (formData : FormData) (photos : List String) (rvId : String) (today : Int)
        (store : StoreModel) (fuel : Nat) (baseDay : Int),
      validateSubmit formData today = none →
      parseDateYMD formData.date = some baseDay →
      store.parentOk = true →
      formData.isRecurring = true →
      createRecurringRecords formData rvId store.parentId store.childFails fuel =
        some ([], 0) →
      createRecord formData photos rvId today store fuel =
        some (.ok (parentRecordData formData photos rvId baseDay, [], 0))) := by
  constructor
  · intro fuel baseDate dates hgen
    exact ⟨generateFutureDates_gt (nextOccurrence_progress hrt hk) fuel baseDate
        dates hgen,
      fun hgt => generateFutureDates_empty hgt fuel dates hgen⟩
  · intro formData photos rvId today store fuel baseDay hval hdate hpar hrec hgen
    exact createRecord_ok hval hdate hpar hrec hgen

/-- C6, witness: the yearly rule with interval 5 and end date one day
out expands to no dates, and the parent is still created with no
children. -/
theorem c6_witness :
    (∀ d ∈ ([] : List Int), makeDay 2025 0 1 < d) ∧
    ([] : List Int) = [] ∧
    createRecord emptyYearlyForm [] "rv1" sampleNow
        { parentOk := true, parentId := "p1", childFails := fun _ => false } 5 =
      some (.ok (parentRecordData emptyYearlyForm [] "rv1" (makeDay 2025 0 1),
        [], 0)) := by
  have h := c6_claim "yearly" 5 (makeDay 2025 0 2)
    (Or.inr (Or.inr (Or.inr rfl))) (by decide)
  have h1 := h.1 5 (makeDay 2025 0 1) [] (by decide)
  refine ⟨h1.1, h1.2 (by decide), ?_⟩
  exact h.2 emptyYearlyForm [] "rv1" sampleNow
    { parentOk := true, parentId := "p1", childFails := fun _ => false } 5
    (makeDay 2025 0 1) (by decide) (by decide) rfl rfl (by decide)

end Fairwinds
